import Mathlib

set_option maxRecDepth 100000

/-!
Verification development for the response cache of the `improved_ai_dev_assistant`
repository (`src/utils/cache.py`).  The Python classes `CacheItem` and
`ResponseCache` are shallowly embedded below: every method that the claims
touch is translated into a pure Lean function on an explicit state record.
`time.time()` is modelled by an explicit `now : Nat` argument supplied at each
call; `asyncio` locks are identities in this single-threaded model; scheduled
background tasks (`asyncio.create_task`) are not run inside the operation that
schedules them, matching the fact that the operation returns before they run.

`hashlib.blake2b` (used by `ResponseCache._get_cache_key` with
`digest_size=16`) is embedded in full below, following RFC 7693, so that the
key-derivation claims are about the real digest.
-/

namespace Cache

/-- 2^64, the modulus of 64-bit words in BLAKE2b. -/
def M64 : Nat := 18446744073709551616

/-- Right rotation of a 64-bit word. -/
def ror64 (x n : Nat) : Nat :=
  ((x >>> n) ||| (x <<< (64 - n))) % M64

/-- The BLAKE2b mixing function G (RFC 7693 §3.1) on one quadruple of state
words, returning the updated quadruple. -/
def mixG (a b c d x y : Nat) : Nat × Nat × Nat × Nat :=
  let a := (a + b + x) % M64
  let d := ror64 (d ^^^ a) 32
  let c := (c + d) % M64
  let b := ror64 (b ^^^ c) 24
  let a := (a + b + y) % M64
  let d := ror64 (d ^^^ a) 16
  let c := (c + d) % M64
  let b := ror64 (b ^^^ c) 63
  (a, b, c, d)

/-- The BLAKE2b initialization vector (RFC 7693 §2.6). -/
def iv (i : Nat) : Nat :=
  match i with
  | 0 => 0x6a09e667f3bcc908
  | 1 => 0xbb67ae8584caa73b
  | 2 => 0x3c6ef372fe94f82b
  | 3 => 0xa54ff53a5f1d36f1
  | 4 => 0x510e527fade682d1
  | 5 => 0x9b05688c2b3e6c1f
  | 6 => 0x1f83d9abfb41bd6b
  | _ => 0x5be0cd19137e2179

/-- Row `r` of the BLAKE2 message schedule SIGMA (RFC 7693 §2.7). -/
def sigmaRow (r : Nat) : List Nat :=
  match r with
  | 0 => [0, 1, 2, 3, 4, 5, 6, 7, 8, 9, 10, 11, 12, 13, 14, 15]
  | 1 => [14, 10, 4, 8, 9, 15, 13, 6, 1, 12, 0, 2, 11, 7, 5, 3]
  | 2 => [11, 8, 12, 0, 5, 2, 15, 13, 10, 14, 3, 6, 7, 1, 9, 4]
  | 3 => [7, 9, 3, 1, 13, 12, 11, 14, 2, 6, 5, 10, 4, 0, 15, 8]
  | 4 => [9, 0, 5, 7, 2, 4, 10, 15, 14, 1, 11, 12, 6, 8, 3, 13]
  | 5 => [2, 12, 6, 10, 0, 11, 8, 3, 4, 13, 7, 5, 15, 14, 1, 9]
  | 6 => [12, 5, 1, 15, 14, 13, 4, 10, 0, 7, 6, 3, 9, 2, 8, 11]
  | 7 => [13, 11, 7, 14, 12, 1, 3, 9, 5, 0, 15, 4, 8, 6, 2, 10]
  | 8 => [6, 15, 14, 9, 11, 3, 0, 8, 12, 2, 13, 7, 1, 4, 10, 5]
  | _ => [10, 2, 8, 4, 7, 6, 1, 5, 15, 11, 9, 14, 3, 12, 13, 0]

/-- Entry `i` of SIGMA row `r mod 10`. -/
def sigmaVal (r i : Nat) : Nat :=
  (sigmaRow (r % 10)).getD i 0

/-- The 16-word working vector of the BLAKE2b compression function. -/
structure V16 where
  v0 : Nat
  v1 : Nat
  v2 : Nat
  v3 : Nat
  v4 : Nat
  v5 : Nat
  v6 : Nat
  v7 : Nat
  v8 : Nat
  v9 : Nat
  v10 : Nat
  v11 : Nat
  v12 : Nat
  v13 : Nat
  v14 : Nat
  v15 : Nat
deriving Repr, DecidableEq

/-- One round of the BLAKE2b compression function: eight applications of G,
first down the columns, then along the diagonals (RFC 7693 §3.2). -/
def blakeRound (m : Nat → Nat) (r : Nat) (v : V16) : V16 :=
  let s := sigmaVal r
  let (a, b, c, d) := mixG v.v0 v.v4 v.v8 v.v12 (m (s 0)) (m (s 1))
  let v := { v with v0 := a, v4 := b, v8 := c, v12 := d }
  let (a, b, c, d) := mixG v.v1 v.v5 v.v9 v.v13 (m (s 2)) (m (s 3))
  let v := { v with v1 := a, v5 := b, v9 := c, v13 := d }
  let (a, b, c, d) := mixG v.v2 v.v6 v.v10 v.v14 (m (s 4)) (m (s 5))
  let v := { v with v2 := a, v6 := b, v10 := c, v14 := d }
  let (a, b, c, d) := mixG v.v3 v.v7 v.v11 v.v15 (m (s 6)) (m (s 7))
  let v := { v with v3 := a, v7 := b, v11 := c, v15 := d }
  let (a, b, c, d) := mixG v.v0 v.v5 v.v10 v.v15 (m (s 8)) (m (s 9))
  let v := { v with v0 := a, v5 := b, v10 := c, v15 := d }
  let (a, b, c, d) := mixG v.v1 v.v6 v.v11 v.v12 (m (s 10)) (m (s 11))
  let v := { v with v1 := a, v6 := b, v11 := c, v12 := d }
  let (a, b, c, d) := mixG v.v2 v.v7 v.v8 v.v13 (m (s 12)) (m (s 13))
  let v := { v with v2 := a, v7 := b, v8 := c, v13 := d }
  let (a, b, c, d) := mixG v.v3 v.v4 v.v9 v.v14 (m (s 14)) (m (s 15))
  { v with v3 := a, v4 := b, v9 := c, v14 := d }

/-- The 8-word BLAKE2b chaining state. -/
structure H8 where
  h0 : Nat
  h1 : Nat
  h2 : Nat
  h3 : Nat
  h4 : Nat
  h5 : Nat
  h6 : Nat
  h7 : Nat
deriving Repr, DecidableEq

/-- Little-endian 64-bit word formed from a byte list. -/
def leWord (bs : List Nat) : Nat :=
  bs.foldr (fun b acc => acc * 256 + b) 0

/-- Message word `i` of a 128-byte block. -/
def blockWord (block : List Nat) (i : Nat) : Nat :=
  leWord ((block.drop (8 * i)).take 8)

/-- The BLAKE2b compression function F (RFC 7693 §3.2): `t` is the byte
counter, `last` the final-block flag. -/
def compress (h : H8) (block : List Nat) (t : Nat) (last : Bool) : H8 :=
  let m := blockWord block
  let v : V16 :=
    { v0 := h.h0, v1 := h.h1, v2 := h.h2, v3 := h.h3
      v4 := h.h4, v5 := h.h5, v6 := h.h6, v7 := h.h7
      v8 := iv 0, v9 := iv 1, v10 := iv 2, v11 := iv 3
      v12 := iv 4 ^^^ (t % M64)
      v13 := iv 5 ^^^ (t / M64 % M64)
      v14 := if last then iv 6 ^^^ (M64 - 1) else iv 6
      v15 := iv 7 }
  let v := (List.range 12).foldl (fun v r => blakeRound m r v) v
  { h0 := h.h0 ^^^ v.v0 ^^^ v.v8
    h1 := h.h1 ^^^ v.v1 ^^^ v.v9
    h2 := h.h2 ^^^ v.v2 ^^^ v.v10
    h3 := h.h3 ^^^ v.v3 ^^^ v.v11
    h4 := h.h4 ^^^ v.v4 ^^^ v.v12
    h5 := h.h5 ^^^ v.v5 ^^^ v.v13
    h6 := h.h6 ^^^ v.v6 ^^^ v.v14
    h7 := h.h7 ^^^ v.v7 ^^^ v.v15 }

/-- Initial chaining state for an unkeyed BLAKE2b with digest length `nn`
bytes: the IV with the parameter-block word folded into `h0`. -/
def blake2bInit (nn : Nat) : H8 :=
  { h0 := iv 0 ^^^ (0x01010000 ^^^ nn)
    h1 := iv 1, h2 := iv 2, h3 := iv 3
    h4 := iv 4, h5 := iv 5, h6 := iv 6, h7 := iv 7 }

/-- Process the message 128 bytes at a time; the final (possibly empty) block
is zero-padded and compressed with the total length as counter and the final
flag set. An empty message yields a single all-zero final block with `t = 0`,
as in RFC 7693.  The first argument is structural-recursion fuel: each
recursive step consumes at least one byte of fuel and 128 bytes of message,
so any fuel of at least `msg.length` gives the RFC behavior, and when fuel
hits zero the remaining message necessarily fits the one final block. -/
def blake2bLoop : Nat → H8 → List Nat → Nat → H8
  | 0, h, msg, processed =>
    compress h (msg ++ List.replicate (128 - msg.length) 0) (processed + msg.length) true
  | fuel + 1, h, msg, processed =>
    if msg.length ≤ 128 then
      compress h (msg ++ List.replicate (128 - msg.length) 0) (processed + msg.length) true
    else
      blake2bLoop fuel (compress h (msg.take 128) (processed + 128) false) (msg.drop 128)
        (processed + 128)

/-- The `n` low-order bytes of a word, little-endian. -/
def toLEBytes : Nat → Nat → List Nat
  | 0, _ => []
  | n + 1, w => (w % 256) :: toLEBytes n (w / 256)

/-- The 64-byte little-endian serialization of the chaining state. -/
def hBytes (h : H8) : List Nat :=
  toLEBytes 8 h.h0 ++ toLEBytes 8 h.h1 ++ toLEBytes 8 h.h2 ++ toLEBytes 8 h.h3 ++
  toLEBytes 8 h.h4 ++ toLEBytes 8 h.h5 ++ toLEBytes 8 h.h6 ++ toLEBytes 8 h.h7

/-- Unkeyed BLAKE2b digest of `msg` with `nn`-byte output, as a byte list. -/
def blake2b (nn : Nat) (msg : List Nat) : List Nat :=
  (hBytes (blake2bLoop msg.length (blake2bInit nn) msg 0)).take nn

/-- UTF-8 encoding of one character, mirroring Python's `str.encode('utf-8')`
on each code point. -/
def utf8Char (c : Char) : List Nat :=
  let n := c.toNat
  if n < 0x80 then [n]
  else if n < 0x800 then [0xC0 ||| (n >>> 6), 0x80 ||| (n &&& 63)]
  else if n < 0x10000 then
    [0xE0 ||| (n >>> 12), 0x80 ||| ((n >>> 6) &&& 63), 0x80 ||| (n &&& 63)]
  else
    [0xF0 ||| (n >>> 18), 0x80 ||| ((n >>> 12) &&& 63),
     0x80 ||| ((n >>> 6) &&& 63), 0x80 ||| (n &&& 63)]

/-- UTF-8 encoding of a string as a byte list. -/
def utf8Bytes (s : String) : List Nat :=
  s.data.flatMap utf8Char

/-- The two lowercase hex characters of one byte. -/
def hexOfByte (b : Nat) : List Char :=
  [Nat.digitChar (b / 16), Nat.digitChar (b % 16)]

/-- Lowercase hex string of a byte list, as produced by Python's
`hexdigest()`. -/
def hexDigest (bs : List Nat) : String :=
  ⟨bs.flatMap hexOfByte⟩

/-- `ResponseCache._get_cache_key` (src/utils/cache.py lines 174-177):
`hashlib.blake2b((model + prompt).encode('utf-8'), digest_size=16).hexdigest()`. -/
def getCacheKey (model prompt : String) : String :=
  hexDigest (blake2b 16 (utf8Bytes (model ++ prompt)))

/-!
## Python dictionaries

Python 3.7+ dicts preserve insertion order; assignment to an existing key
updates the value in place, assignment to a fresh key appends, and `pop`/`del`
remove the binding while preserving the order of the rest.  They are modelled
as association lists with those exact operations.
-/

/-- An insertion-ordered string-keyed dictionary. -/
abbrev Dict (α : Type) := List (String × α)

/-- `d.get(k)` / `d[k]` lookup. -/
def dictGet {α : Type} : Dict α → String → Option α
  | [], _ => none
  | p :: t, k => if p.1 == k then some p.2 else dictGet t k

/-- `k in d`. -/
def dictContains {α : Type} (l : Dict α) (k : String) : Bool :=
  l.any (fun p => p.1 == k)

/-- `d[k] = v`: update the binding in place if present, else append. -/
def dictSet {α : Type} : Dict α → String → α → Dict α
  | [], k, v => [(k, v)]
  | p :: t, k, v => if p.1 == k then (k, v) :: t else p :: dictSet t k v

/-- `d.pop(k, None)` / `del d[k]`: remove the binding of `k` (dict keys are
unique), preserving the order of the rest. -/
def dictPop {α : Type} : Dict α → String → Dict α
  | [], _ => []
  | p :: t, k => if p.1 == k then t else p :: dictPop t k

/-- Python's `sorted` is an ascending stable sort; insertion sort realizes the
same function: an element is placed before the first element it compares
`≤` to, so equal elements keep their original order. -/
def insSorted {α : Type} (le : α → α → Bool) (x : α) : List α → List α
  | [] => [x]
  | y :: ys => if le x y then x :: y :: ys else y :: insSorted le x ys

/-- Stable ascending sort by the boolean comparison `le` (model of Python's
`sorted(..., key=...)`). -/
def pySorted {α : Type} (le : α → α → Bool) (l : List α) : List α :=
  l.foldr (insSorted le) []

/-!
## Data model (`CacheItem`, index entries, disk files)
-/

/-- The metadata dict that `store` builds (`{"prompt_hash": ..., "timestamp":
..., **metadata}`); the claims never pass extra metadata, so only the two
always-present fields are represented. -/
structure MetaD where
  promptHash : String
  timestamp : Nat
deriving Repr, DecidableEq

/-- `CacheItem` (src/utils/cache.py lines 15-38). -/
structure CacheItem where
  key : String
  model : String
  response : String
  createdAt : Nat
  lastAccess : Nat
  meta : MetaD
  hits : Nat
  sizeEstimate : Nat
deriving Repr, DecidableEq

/-- Static parameters of a `ResponseCache`, together with the models of the
interpreter functions the cache calls: `sys.getsizeof` on a string,
`sys.getsizeof` on the (small, fixed-shape) metadata dict, and
`hashlib.md5(...).hexdigest()`.  These are CPython internals, not repository
code, so they are parameters of the embedding. -/
structure Config where
  maxSizeMb : Nat
  cleanupInterval : Nat
  maxMemoryItems : Nat
  evictionPolicy : String
  getsizeof : String → Nat
  dictSizeof : Nat
  md5hex : String → String

/-- `self.max_size_bytes = max_size_mb * 1024 * 1024` (line 99). -/
def Config.maxSizeBytes (cfg : Config) : Nat :=
  cfg.maxSizeMb * 1024 * 1024

/-- `CacheItem.__init__`: `created_at` and `last_access` are both set to the
current time, `hits` to 0, and `size_estimate` to the sum of the
`sys.getsizeof` of the key, the model, the response and the metadata dict. -/
def mkCacheItem (cfg : Config) (key model response : String) (meta : MetaD)
    (now : Nat) : CacheItem :=
  { key, model, response, createdAt := now, lastAccess := now, meta, hits := 0
    sizeEstimate :=
      cfg.getsizeof key + cfg.getsizeof model + cfg.getsizeof response + cfg.dictSizeof }

/-- `CacheItem.update_access` (lines 35-38). -/
def CacheItem.updateAccess (it : CacheItem) (now : Nat) : CacheItem :=
  { it with lastAccess := now, hits := it.hits + 1 }

/-- One value of the disk cache index `self.cache_index` (the dict written at
lines 416-423 of `store`; `get` also touches `last_access` and `hits`). -/
structure IndexEntry where
  key : String
  model : String
  created : Nat
  lastAccess : Nat
  sizeBytes : Nat
  hits : Nat
deriving Repr, DecidableEq

/-- The JSON object `store` serializes into the per-key cache file
(lines 401-408). -/
structure DiskData where
  key : String
  model : String
  response : String
  promptHash : String
  timestamp : Nat
  meta : MetaD
deriving Repr, DecidableEq

/-- Contents of a per-key cache file on disk: either a parseable payload or
bytes that `json.loads` rejects. -/
inductive DiskContent where
  | valid (d : DiskData)
  | corrupt
deriving Repr, DecidableEq

/-- The full mutable state of one `ResponseCache` together with the on-disk
artifacts it owns (`{key}.json` payload files keyed by cache key, and the
persisted copy of the index file) and the three `perf_tracker` counters the
cache increments. -/
structure State where
  memoryCache : Dict CacheItem
  cacheIndex : Dict IndexEntry
  currentSizeBytes : Int
  lastCleanup : Nat
  diskFiles : Dict DiskContent
  savedIndex : Dict IndexEntry
  ctrHits : Nat
  ctrMisses : Nat
  ctrStores : Nat
deriving Repr, DecidableEq

/-- The state after `ResponseCache.__init__` on an empty cache directory:
empty index and memory table, size 0, `last_cleanup = time.time()`, and fresh
(zero) perf counters. -/
def initState (now : Nat) : State :=
  { memoryCache := [], cacheIndex := [], currentSizeBytes := 0, lastCleanup := now
    diskFiles := [], savedIndex := [], ctrHits := 0, ctrMisses := 0, ctrStores := 0 }

/-!
## Operations
-/

/-- `_calculate_current_size` (lines 168-172): sum of `size_bytes` over the
index. -/
def calculateCurrentSize (S : State) : Int :=
  (S.cacheIndex.map (fun p => (p.2.sizeBytes : Int))).sum

/-- `_cleanup_memory_cache` (lines 266-287): when the memory table exceeds
`max_memory_items`, sort by `last_access` (lru) or `hits` (otherwise) and pop
the first `len - max` keys. -/
def cleanupMemoryCache (cfg : Config) (S : State) : State :=
  if S.memoryCache.length ≤ cfg.maxMemoryItems then S
  else
    let itemsToRemove := S.memoryCache.length - cfg.maxMemoryItems
    let sortedItems :=
      if cfg.evictionPolicy == "lru" then
        pySorted (fun a b => decide (a.2.lastAccess ≤ b.2.lastAccess)) S.memoryCache
      else
        pySorted (fun a b => decide (a.2.hits ≤ b.2.hits)) S.memoryCache
    let doomed := (sortedItems.take itemsToRemove).map (·.1)
    { S with memoryCache := doomed.foldl (fun mc k => dictPop mc k) S.memoryCache }

/-- `target_size = int(self.max_size_bytes * 0.9)` (line 198).  The float
product is modelled exactly as `⌊n * 9 / 10⌋`; for the byte counts appearing
in this development the double-precision computation agrees. -/
def targetSize (cfg : Config) : Nat :=
  cfg.maxSizeBytes * 9 / 10

/-- The eviction loop of `_check_and_cleanup` (lines 234-251) over the sorted
`(key, last_access, hits, size_bytes)` tuples.  The `break` fires only when
not forced; each iteration unlinks the file and pops the memory entry first,
then `del`s the index entry — a `KeyError` there (duplicate key in the list)
is caught, leaving `bytes_removed` untouched for that iteration.  Returns the
state, `bytes_removed` and `items_removed`. -/
def evictLoop (force : Bool) (bytesToRemove : Int) :
    List (String × Nat × Nat × Nat) → State → Int → Nat → State × Int × Nat
  | [], S, bytesRemoved, itemsRemoved => (S, bytesRemoved, itemsRemoved)
  | (key, _, _, size) :: rest, S, bytesRemoved, itemsRemoved =>
    if bytesRemoved ≥ bytesToRemove ∧ force = false then (S, bytesRemoved, itemsRemoved)
    else
      let S := { S with diskFiles := dictPop S.diskFiles key,
                        memoryCache := dictPop S.memoryCache key }
      if dictContains S.cacheIndex key then
        evictLoop force bytesToRemove rest { S with cacheIndex := dictPop S.cacheIndex key }
          (bytesRemoved + (size : Int)) (itemsRemoved + 1)
      else
        evictLoop force bytesToRemove rest S bytesRemoved itemsRemoved

/-- `_check_and_cleanup` (lines 179-264). -/
def checkAndCleanup (cfg : Config) (S : State) (force : Bool) (now : Nat) : State :=
  if force = false ∧ now - S.lastCleanup < cfg.cleanupInterval then S
  else
    let S := { S with lastCleanup := now }
    let S := cleanupMemoryCache cfg S
    let S := { S with currentSizeBytes := calculateCurrentSize S }
    let target : Int := (targetSize cfg : Int)
    if S.currentSizeBytes ≤ target ∧ force = false then S
    else
      let cacheItems := S.cacheIndex.map (fun p => (p.1, p.2.lastAccess, p.2.hits, p.2.sizeBytes))
      let sortedItems :=
        if cfg.evictionPolicy == "lru" then
          pySorted (fun a b => decide (a.2.1 ≤ b.2.1)) cacheItems
        else if cfg.evictionPolicy == "lfu" then
          pySorted (fun a b => decide (a.2.2.1 ≤ b.2.2.1)) cacheItems
        else
          pySorted (fun a b => decide (a.2.1 * a.2.2.2 ≤ b.2.1 * b.2.2.2)) cacheItems
      let bytesToRemove := S.currentSizeBytes - target
      let res := evictLoop force bytesToRemove sortedItems S 0 0
      let S := { res.1 with currentSizeBytes := res.1.currentSizeBytes - res.2.1 }
      { S with savedIndex := S.cacheIndex }

/-- `ResponseCache.get` (lines 289-361).  Returns the optional response and
the successor state.  The fire-and-forget index save scheduled on a disk hit
is modelled as having completed. -/
def get (cfg : Config) (S : State) (model prompt : String) (now : Nat) :
    Option String × State :=
  let key := getCacheKey model prompt
  match dictGet S.memoryCache key with
  | some item =>
    let item := item.updateAccess now
    (some item.response,
     { S with memoryCache := dictSet S.memoryCache key item, ctrHits := S.ctrHits + 1 })
  | none =>
    match dictGet S.cacheIndex key with
    | some entry =>
      match dictGet S.diskFiles key with
      | some (.valid d) =>
        let entry := { entry with lastAccess := now, hits := entry.hits + 1 }
        let S := { S with cacheIndex := dictSet S.cacheIndex key entry }
        let item := mkCacheItem cfg key d.model d.response d.meta now
        let item := { item with hits := entry.hits }
        let S := { S with memoryCache := dictSet S.memoryCache key item }
        let S := cleanupMemoryCache cfg S
        let S := { S with savedIndex := S.cacheIndex }
        (some d.response, { S with ctrHits := S.ctrHits + 1 })
      | some .corrupt =>
        let S := { S with diskFiles := dictPop S.diskFiles key,
                          cacheIndex := dictPop S.cacheIndex key }
        let S := { S with savedIndex := S.cacheIndex }
        (none, { S with ctrMisses := S.ctrMisses + 1 })
      | none =>
        (none, { S with ctrMisses := S.ctrMisses + 1 })
    | none => (none, { S with ctrMisses := S.ctrMisses + 1 })

/-- `ResponseCache.store` (lines 363-441), without the optional extra
`metadata` argument (the claims never pass one).  The cleanup task scheduled
when the running total exceeds the maximum is not run inside `store`. -/
def store (cfg : Config) (S : State) (model prompt response : String) (now : Nat) : State :=
  if response = "" ∨ prompt = "" then S
  else
    let key := getCacheKey model prompt
    let meta : MetaD := { promptHash := cfg.md5hex prompt, timestamp := now }
    let item := mkCacheItem cfg key model response meta now
    let S := { S with memoryCache := dictSet S.memoryCache key item }
    let d : DiskData :=
      { key, model, response, promptHash := meta.promptHash
        timestamp := item.createdAt, meta }
    let S := { S with diskFiles := dictSet S.diskFiles key (.valid d) }
    let entry : IndexEntry :=
      { key, model, created := item.createdAt, lastAccess := item.lastAccess
        sizeBytes := item.sizeEstimate, hits := 1 }
    let S := { S with cacheIndex := dictSet S.cacheIndex key entry,
                      currentSizeBytes := S.currentSizeBytes + (item.sizeEstimate : Int) }
    let S := { S with savedIndex := S.cacheIndex }
    { S with ctrStores := S.ctrStores + 1 }

/-- `ResponseCache.clear` (lines 443-501).  Returns the state and the
`(items_removed, bytes_freed)` pair. -/
def clear (S : State) (olderThanDays : Option Nat) (now : Nat) : State × Nat × Int :=
  match olderThanDays with
  | some days =>
    let cutoff : Int := (now : Int) - (days : Int) * 86400
    let doomedEntries := S.cacheIndex.filter (fun p => (p.2.created : Int) < cutoff)
    let keysToRemove := doomedEntries.map (·.1)
    let bytesFreed : Int := (doomedEntries.map (fun p => (p.2.sizeBytes : Int))).sum
    let S := { S with
      diskFiles := keysToRemove.foldl (fun d k => dictPop d k) S.diskFiles
      memoryCache := keysToRemove.foldl (fun d k => dictPop d k) S.memoryCache
      cacheIndex := keysToRemove.foldl (fun d k => dictPop d k) S.cacheIndex
      currentSizeBytes := S.currentSizeBytes - bytesFreed }
    ({ S with savedIndex := S.cacheIndex }, keysToRemove.length, bytesFreed)
  | none =>
    let bytesFreed := S.currentSizeBytes
    let keys := S.cacheIndex.map (·.1)
    let S := { S with
      diskFiles := keys.foldl (fun d k => dictPop d k) S.diskFiles
      memoryCache := [], cacheIndex := [], currentSizeBytes := 0 }
    ({ S with savedIndex := S.cacheIndex }, keys.length, bytesFreed)

/-- The statistics snapshot `get_stats` returns (lines 503-538).  Python's
float division for the hit rate is modelled as exact rational division. -/
structure Stats where
  diskItems : Nat
  memoryItems : Nat
  diskSizeBytes : Nat
  memorySizeBytes : Nat
  hits : Nat
  misses : Nat
  stores : Nat
  hitRate : ℚ
deriving Repr, DecidableEq

/-- `ResponseCache.get_stats` (lines 503-538). -/
def getStats (S : State) : Stats :=
  let diskSize := (S.cacheIndex.map (fun p => p.2.sizeBytes)).sum
  let memorySize := (S.memoryCache.map (fun p => p.2.sizeEstimate)).sum
  let totalLookups := S.ctrHits + S.ctrMisses
  { diskItems := S.cacheIndex.length
    memoryItems := S.memoryCache.length
    diskSizeBytes := diskSize
    memorySizeBytes := memorySize
    hits := S.ctrHits
    misses := S.ctrMisses
    stores := S.ctrStores
    hitRate := if totalLookups > 0 then (S.ctrHits : ℚ) / (totalLookups : ℚ) else 0 }

/-!
## Example configuration and scenario states

Shared by the witnesses and counterexamples below.  The size model charges
1000 bytes per character, so that three 300-character responses approach the
1 MB budget of the example configuration.
-/

/-- A concrete configuration: 1 MB budget, hourly cleanup, 100 memory items,
`lru` policy, 1000 bytes per character as the string size model. -/
def exCfg : Config :=
  { maxSizeMb := 1, cleanupInterval := 3600, maxMemoryItems := 100
    evictionPolicy := "lru", getsizeof := fun s => 1000 * s.length
    dictSizeof := 0, md5hex := fun _ => "d41d8cd98f00b204e9800998ecf8427e" }

/-- A 300-character response. -/
def exRespA : String := String.mk (List.replicate 300 'a')

/-- A 300-character response. -/
def exRespB : String := String.mk (List.replicate 300 'b')

/-- A 300-character response. -/
def exRespC : String := String.mk (List.replicate 300 'c')

/-- Store item A. -/
def exS1 : State := store exCfg (initState 0) "m" "pa" exRespA 1

/-- Then store item B. -/
def exS2 : State := store exCfg exS1 "m" "pb" exRespB 2

/-- Then store item C. -/
def exS3 : State := store exCfg exS2 "m" "pc" exRespC 3

/-- Then access A via `get` (a memory hit). -/
def exS4 : State := (get exCfg exS3 "m" "pa" 4).2

/-- Then run a forced cleanup. -/
def exS5 : State := checkAndCleanup exCfg exS4 true 5

/-- Store a first response under ("m", "p"). -/
def exT1 : State := store exCfg (initState 0) "m" "p" "xx" 1

/-- Overwrite it with a second response under the same key. -/
def exT2 : State := store exCfg exT1 "m" "p" "yyy" 2

/-- The cache key of ("m", "p"). -/
def exKey : String := getCacheKey "m" "p"

/-- An index entry for `exKey` with an accumulated hit count of 3. -/
def exEntry : IndexEntry :=
  { key := exKey, model := "m", created := 0, lastAccess := 0, sizeBytes := 5, hits := 3 }

/-- A state whose index lists `exKey` but whose disk file for it is missing
and whose memory table is empty. -/
def exMissState : State :=
  { memoryCache := [], cacheIndex := [(exKey, exEntry)], currentSizeBytes := 5, lastCleanup := 0
    diskFiles := [], savedIndex := [(exKey, exEntry)], ctrHits := 0, ctrMisses := 0, ctrStores := 0 }

/-- The same state, but the disk file for `exKey` exists and is unparseable. -/
def exCorruptState : State := { exMissState with diskFiles := [(exKey, DiskContent.corrupt)] }

/-- The same state, but the disk file for `exKey` exists and parses. -/
def exPrior : State :=
  { exMissState with diskFiles :=
      [(exKey, DiskContent.valid
        { key := exKey, model := "m", response := "r", promptHash := "x", timestamp := 0
          meta := { promptHash := "x", timestamp := 0 } })] }

/-- One store... -/
def exW1 : State := store exCfg (initState 0) "m" "p" "resp" 1

/-- ...one hit... -/
def exW2 : State := (get exCfg exW1 "m" "p" 2).2

/-- ...and one miss. -/
def exW3 : State := (get exCfg exW2 "m" "q" 3).2

/-!
## Dictionary and sorting lemmas
-/

theorem dictGet_dictSet_self {α : Type} (l : Dict α) (k : String) (v : α) :
    dictGet (dictSet l k v) k = some v := by
  induction l with
  | nil => simp [dictSet, dictGet]
  | cons p t ih =>
    by_cases h : (p.1 == k) = true
    · simp [dictSet, dictGet, h]
    · simp [dictSet, dictGet, h, ih]

theorem dictContains_eq_true_iff {α : Type} (l : Dict α) (k : String) :
    dictContains l k = true ↔ k ∈ l.map (fun p => p.1) := by
  simp [dictContains, List.any_eq_true, List.mem_map]

theorem map_fst_dictPop {α : Type} (l : Dict α) (k : String) :
    (dictPop l k).map (fun p => p.1) = (l.map (fun p => p.1)).erase k := by
  induction l with
  | nil => rfl
  | cons p t ih =>
    by_cases h : (p.1 == k) = true
    · simp [dictPop, h, List.erase_cons, ih]
    · simp [dictPop, h, List.erase_cons, ih]

theorem insSorted_perm {α : Type} (le : α → α → Bool) (x : α) (l : List α) :
    (insSorted le x l).Perm (x :: l) := by
  induction l with
  | nil => exact List.Perm.refl _
  | cons y ys ih =>
    by_cases h : le x y = true
    · simp [insSorted, h]
    · simp only [insSorted, h, if_false, Bool.false_eq_true]
      exact (ih.cons y).trans (List.Perm.swap x y ys)

theorem pySorted_perm {α : Type} (le : α → α → Bool) (l : List α) :
    (pySorted le l).Perm l := by
  induction l with
  | nil => exact List.Perm.refl _
  | cons x t ih => exact (insSorted_perm le x (pySorted le t)).trans (ih.cons x)

/-!
## Claims
-/

/-- C6: for every model `m`, prompt `p` and response `r`, `store` with an
empty prompt or an empty response is a silent no-op: it raises no error,
creates no index entry, writes no disk file, and leaves the in-memory table,
the index and `current_size_bytes` unchanged (the whole state is unchanged). -/
theorem c6_store_empty_input_noop (cfg : Config) (S : State) (m p r : String)
    (now : Nat) (h : p = "" ∨ r = "") :
    store cfg S m p r now = S := by
  unfold store
  rw [if_pos (by tauto)]

/-- Witness for C6 at a concrete input: storing an empty prompt and storing
an empty response both leave the state untouched. -/
theorem c6_store_empty_input_noop_witness :
    store exCfg (initState 5) "m" "" "r" 7 = initState 5 ∧
    store exCfg (initState 5) "m" "p" "" 7 = initState 5 :=
  ⟨c6_store_empty_input_noop exCfg (initState 5) "m" "" "r" 7 (Or.inl rfl),
   c6_store_empty_input_noop exCfg (initState 5) "m" "p" "" 7 (Or.inr rfl)⟩

/-- C5, corrected in two places.  The round trip needs a non-empty prompt as
well (the code makes `store` a no-op on an empty prompt): for every state,
for non-empty `p` and `r`, `store(m, p, r)` immediately followed by
`get(m, p)` returns `r`.  And miss-on-unknown holds on a fresh cache — before
any store at all, `get` returns absent for every pair — but not per pair on a
loaded cache: the key hashes the bare concatenation `model + prompt`, so
distinct pairs such as `("ab", "c")` and `("a", "bc")` share a key and a
`get` for a never-stored pair can return another pair's response. -/
theorem c5_round_trip_and_miss_on_unknown (cfg : Config) (S : State)
    (m p r : String) (t1 t2 : Nat) (hp : p ≠ "") (hr : r ≠ "") :
    (get cfg (store cfg S m p r t1) m p t2).1 = some r ∧
    (∀ m2 p2 t0 t3, (get cfg (initState t0) m2 p2 t3).1 = none) := by
  constructor
  · unfold store
    rw [if_neg (by tauto)]
    unfold get
    simp [dictGet_dictSet_self, CacheItem.updateAccess, mkCacheItem]
  · intro m2 p2 t0 t3
    rfl

/-- C5 counterexample to the claim as stated, refuting both halves.  The
round trip fails for the empty prompt (the store is a silent no-op, so the
immediately following `get` misses instead of returning `r`).  And
miss-on-unknown fails per pair on a loaded cache: after `store("ab", "c",
"rr")`, the never-stored pair `("a", "bc")` hashes to the same key — the key
is BLAKE2b of the bare concatenation `model + prompt` — so its `get` returns
`"rr"` instead of absent. -/
theorem c5_empty_prompt_and_key_collision :
    ¬ ((get exCfg (store exCfg (initState 0) "m" "" "rr" 1) "m" "" 2).1 = some "rr") ∧
    getCacheKey "ab" "c" = getCacheKey "a" "bc" ∧
    (get exCfg (store exCfg (initState 0) "ab" "c" "rr" 1) "a" "bc" 2).1 = some "rr" := by
  decide

/-- Witness for C5 at a concrete input. -/
theorem c5_round_trip_witness :
    (get exCfg (store exCfg (initState 0) "m" "p" "rr" 1) "m" "p" 2).1 = some "rr" ∧
    (get exCfg (initState 0) "q" "z" 5).1 = none :=
  ⟨(c5_round_trip_and_miss_on_unknown exCfg (initState 0) "m" "p" "rr" 1 2
      (by decide) (by decide)).1,
   (c5_round_trip_and_miss_on_unknown exCfg (initState 0) "m" "p" "rr" 1 2
      (by decide) (by decide)).2 "q" "z" 0 5⟩

/-- C9: every successful `store` writes the index entry with `hits = 1`,
whatever hit count the key had accumulated before: re-storing a
(model, prompt) pair resets that entry's hit count. -/
theorem c9_store_resets_index_hits_to_one (cfg : Config) (S : State)
    (m p r : String) (now : Nat) (hp : p ≠ "") (hr : r ≠ "") :
    (dictGet (store cfg S m p r now).cacheIndex (getCacheKey m p)).map
      (fun e => e.hits) = some 1 := by
  unfold store
  rw [if_neg (by tauto)]
  simp [dictGet_dictSet_self]

/-- Witness for C9 at a concrete input: the entry held `hits = 3` before the
store and holds `hits = 1` after it. -/
theorem c9_store_resets_index_hits_witness :
    (dictGet exPrior.cacheIndex (getCacheKey "m" "p")).map (fun e => e.hits) = some 3 ∧
    (dictGet (store exCfg exPrior "m" "p" "zz" 9).cacheIndex (getCacheKey "m" "p")).map
      (fun e => e.hits) = some 1 :=
  ⟨by decide, c9_store_resets_index_hits_to_one exCfg exPrior "m" "p" "zz" 9
    (by decide) (by decide)⟩

/-- C10: a `get` that hits the in-memory table returns the item's response
and changes exactly two things — that item (its `last_access` and `hits`, via
`update_access`) and the hit counter; the index, `current_size_bytes`, the
disk files, the persisted index and the other counters are untouched. -/
theorem c10_memory_hit_frame (cfg : Config) (S : State) (m p : String)
    (now : Nat) (item : CacheItem)
    (h : dictGet S.memoryCache (getCacheKey m p) = some item) :
    get cfg S m p now =
      (some item.response,
       { S with
          memoryCache := dictSet S.memoryCache (getCacheKey m p) (item.updateAccess now)
          ctrHits := S.ctrHits + 1 }) := by
  unfold get
  simp only [h, CacheItem.updateAccess]

/-- Witness for C10 at a concrete input: the item stored by `exW1` is served
from memory and only the memory table and the hit counter change. -/
theorem c10_memory_hit_frame_witness :
    get exCfg exW1 "m" "p" 2 =
      (some (mkCacheItem exCfg (getCacheKey "m" "p") "m" "resp"
          { promptHash := exCfg.md5hex "p", timestamp := 1 } 1).response,
       { exW1 with
          memoryCache := dictSet exW1.memoryCache (getCacheKey "m" "p")
            ((mkCacheItem exCfg (getCacheKey "m" "p") "m" "resp"
              { promptHash := exCfg.md5hex "p", timestamp := 1 } 1).updateAccess 2)
          ctrHits := exW1.ctrHits + 1 }) :=
  c10_memory_hit_frame exCfg exW1 "m" "p" 2
    (mkCacheItem exCfg (getCacheKey "m" "p") "m" "resp"
      { promptHash := exCfg.md5hex "p", timestamp := 1 } 1) (by decide)

/-- C8: `get_stats` reports `hit_rate = hits / (hits + misses)` whenever at
least one lookup has occurred, `0` when there have been none, and `1/2` after
exactly one hit and one miss. -/
theorem c8_hit_rate_spec (S : State) :
    (S.ctrHits + S.ctrMisses = 0 → (getStats S).hitRate = 0) ∧
    (0 < S.ctrHits + S.ctrMisses →
      (getStats S).hitRate = (S.ctrHits : ℚ) / ((S.ctrHits : ℚ) + (S.ctrMisses : ℚ))) ∧
    (S.ctrHits = 1 ∧ S.ctrMisses = 1 → (getStats S).hitRate = 1 / 2) := by
  refine ⟨fun h => ?_, fun h => ?_, fun h => ?_⟩
  · simp [getStats, h]
  · simp only [getStats]
    rw [if_pos h]
    push_cast
    rfl
  · obtain ⟨h1, h2⟩ := h
    simp [getStats, h1, h2]

/-- Witness for C8: the operational state `exW3` has exactly one hit and one
miss and reports a hit rate of 1/2; a fresh cache reports 0. -/
theorem c8_hit_rate_witness :
    (getStats exW3).hitRate = 1 / 2 ∧ (getStats (initState 0)).hitRate = 0 :=
  ⟨(c8_hit_rate_spec exW3).2.2 (by decide), (c8_hit_rate_spec (initState 0)).1 rfl⟩

/-- C1: evaluation of the code at the failing input.  After a store into a
fresh cache the size invariant `sum(size_bytes) == current_size_bytes` holds,
but a second store that overwrites the same key adds the new entry's size to
`current_size_bytes` without subtracting the overwritten entry's size
(src/utils/cache.py line 426), so the counter exceeds the index sum by the
old entry's 35000 bytes. -/
theorem c1_store_overwrite_breaks_size_invariant :
    (exT1.cacheIndex.map (fun q => (q.2.sizeBytes : Int))).sum = exT1.currentSizeBytes ∧
    (exT2.cacheIndex.map (fun q => (q.2.sizeBytes : Int))).sum ≠ exT2.currentSizeBytes ∧
    exT2.currentSizeBytes = (exT2.cacheIndex.map (fun q => (q.2.sizeBytes : Int))).sum + 35000 := by
  decide

/-- C4: evaluation of the code at the failing input.  After
`store(m, p, r1); store(m, p, r2)`, `get(m, p)` returns `r2` and the index
holds exactly one entry for the key, but the tracked total
`current_size_bytes` does not reflect only `r2`'s entry: it still includes
`r1`'s 35000 bytes (the index's own size sum does reflect only `r2`). -/
theorem c4_overwrite_single_entry_but_size_not_reset :
    (get exCfg exT2 "m" "p" 3).1 = some "yyy" ∧
    exT2.cacheIndex.map (fun q => q.1) = [getCacheKey "m" "p"] ∧
    (exT2.cacheIndex.map (fun q => (q.2.sizeBytes : Int))).sum = 36000 ∧
    exT2.currentSizeBytes ≠ 36000 := by
  decide

/-- C2 counterexample to the claim as stated: `exMissState` lists `exKey` in
its index, has no in-memory entry and no disk file for it, yet
`get("m", "p")` leaves the key in the index instead of removing it (the code
only self-heals when the file exists but fails to parse; a missing file skips
the whole branch). -/
theorem c2_missing_file_key_not_removed :
    (get exCfg exMissState "m" "p" 7).1 = none ∧
    (get exCfg exMissState "m" "p" 7).2.ctrMisses = exMissState.ctrMisses + 1 ∧
    dictContains (get exCfg exMissState "m" "p" 7).2.cacheIndex exKey = true := by
  decide

/-- C2, corrected: the self-healing applies to a disk file that exists but
cannot be parsed — then `get` returns absent, removes the key from the index,
persists the index and records a miss; when the file is missing, `get` still
returns absent and records a miss but leaves the index (and everything else)
unchanged. -/
theorem c2_unreadable_entry_self_heal (cfg : Config) (S : State) (m p : String)
    (now : Nat) (e : IndexEntry)
    (hmem : dictGet S.memoryCache (getCacheKey m p) = none)
    (hidx : dictGet S.cacheIndex (getCacheKey m p) = some e) :
    (dictGet S.diskFiles (getCacheKey m p) = some DiskContent.corrupt →
      (get cfg S m p now).1 = none ∧
      (get cfg S m p now).2.cacheIndex = dictPop S.cacheIndex (getCacheKey m p) ∧
      (get cfg S m p now).2.savedIndex = dictPop S.cacheIndex (getCacheKey m p) ∧
      (get cfg S m p now).2.ctrMisses = S.ctrMisses + 1) ∧
    (dictGet S.diskFiles (getCacheKey m p) = none →
      get cfg S m p now = (none, { S with ctrMisses := S.ctrMisses + 1 })) := by
  constructor
  · intro hdisk
    unfold get
    simp only [hmem, hidx, hdisk]
    exact ⟨trivial, trivial, trivial, trivial⟩
  · intro hdisk
    unfold get
    simp only [hmem, hidx, hdisk]

/-- Witness for C2 at a concrete input: the state `exCorruptState` holds an
unparseable disk file for `exKey`; `get` misses and prunes the entry. -/
theorem c2_unreadable_entry_self_heal_witness :
    (get exCfg exCorruptState "m" "p" 7).1 = none ∧
    (get exCfg exCorruptState "m" "p" 7).2.cacheIndex =
      dictPop exCorruptState.cacheIndex (getCacheKey "m" "p") ∧
    (get exCfg exCorruptState "m" "p" 7).2.savedIndex =
      dictPop exCorruptState.cacheIndex (getCacheKey "m" "p") ∧
    (get exCfg exCorruptState "m" "p" 7).2.ctrMisses = exCorruptState.ctrMisses + 1 :=
  (c2_unreadable_entry_self_heal exCfg exCorruptState "m" "p" 7 exEntry
    (by decide) (by decide)).1 (by decide)

/-- `_cleanup_memory_cache` never touches the disk index. -/
theorem cleanupMemoryCache_cacheIndex (cfg : Config) (S : State) :
    (cleanupMemoryCache cfg S).cacheIndex = S.cacheIndex := by
  unfold cleanupMemoryCache
  split
  · rfl
  · split <;> rfl

/-- With `force = True` the eviction loop never breaks out early; if the
processed tuples carry (as a multiset) every key of the index, the loop
deletes the whole index. -/
theorem evictLoop_force_clears (btr : Int) :
    ∀ (items : List (String × Nat × Nat × Nat)) (S : State) (br : Int) (ir : Nat),
      (items.map (fun q => q.1)).Perm (S.cacheIndex.map (fun p => p.1)) →
      (evictLoop true btr items S br ir).1.cacheIndex = [] := by
  intro items
  induction items with
  | nil =>
    intro S br ir h
    have hmap : S.cacheIndex.map (fun p => p.1) = [] := h.symm.eq_nil
    simpa [evictLoop] using List.map_eq_nil_iff.mp hmap
  | cons q rest ih =>
    intro S br ir h
    obtain ⟨k, last, hits, size⟩ := q
    have hmem : k ∈ S.cacheIndex.map (fun p => p.1) :=
      h.subset (List.mem_cons_self _ _)
    have hperm : (rest.map (fun q => q.1)).Perm
        ((S.cacheIndex.map (fun p => p.1)).erase k) :=
      (List.cons_perm_iff_perm_erase.mp (by simpa using h)).2
    have hc : dictContains S.cacheIndex k = true :=
      (dictContains_eq_true_iff _ _).mpr hmem
    simp only [evictLoop]
    rw [if_neg (by simp)]
    rw [if_pos hc]
    apply ih
    rw [map_fst_dictPop]
    exact hperm

/-- C3, corrected: a cleanup pass invoked with `force=True` never stops at
the target size — the eviction loop's break is disabled when forced, so it
removes every entry of the index (not just the least recently used one):
after any forced cleanup the index is empty. -/
theorem c3_forced_cleanup_removes_every_entry (cfg : Config) (S : State) (now : Nat) :
    (checkAndCleanup cfg S true now).cacheIndex = [] := by
  unfold checkAndCleanup
  rw [if_neg (by simp)]
  rw [if_neg (by simp)]
  have base : ∀ (S2 : State) (le : (String × Nat × Nat × Nat) → (String × Nat × Nat × Nat) → Bool)
      (btr : Int),
      (evictLoop true btr
        (pySorted le (S2.cacheIndex.map (fun p => (p.1, p.2.lastAccess, p.2.hits, p.2.sizeBytes))))
        S2 0 0).1.cacheIndex = [] := by
    intro S2 le btr
    apply evictLoop_force_clears
    refine ((pySorted_perm le _).map (fun q => q.1)).trans ?_
    rw [List.map_map]
    exact List.Perm.refl _
  split
  · exact base _ _ _
  · split
    · exact base _ _ _
    · exact base _ _ _

/-- C3 counterexample to the claim as stated, on the scenario it describes:
items A, B, C are stored in that order, A is accessed via `get` after C is
stored (`exS4`), removing any single 333000-byte item would reach the
943718-byte target, yet the forced cleanup `exS5` evicts all three items —
in particular A and C are gone, so the cleanup did not remove only B.  (The
memory-served `get` also never refreshed A's index `last_access`, so A, not
B, headed the LRU eviction order.) -/
theorem c3_forced_cleanup_scenario :
    (0 < calculateCurrentSize exS4 - (targetSize exCfg : Int) ∧
     calculateCurrentSize exS4 - (targetSize exCfg : Int) ≤ 333000 ∧
     exS4.cacheIndex.map (fun q => (q.2.sizeBytes : Int)) = [333000, 333000, 333000]) ∧
    exS5.cacheIndex = [] := by
  decide

/-- The sixteen characters a hex digest may contain. -/
def hexChars : List Char :=
  "0123456789abcdef".data

/-- `toLEBytes n` always yields exactly `n` bytes. -/
theorem toLEBytes_length (n w : Nat) : (toLEBytes n w).length = n := by
  induction n generalizing w with
  | zero => rfl
  | succ n ih => simp [toLEBytes, ih]

/-- Every byte produced by `toLEBytes` is below 256. -/
theorem toLEBytes_lt (n w : Nat) : ∀ b ∈ toLEBytes n w, b < 256 := by
  induction n generalizing w with
  | zero => intro b hb; simp [toLEBytes] at hb
  | succ n ih =>
    intro b hb
    simp only [toLEBytes, List.mem_cons] at hb
    rcases hb with hb | hb
    · subst hb
      exact Nat.mod_lt _ (by norm_num)
    · exact ih _ b hb

/-- The serialized chaining state is 64 bytes long. -/
theorem hBytes_length (h : H8) : (hBytes h).length = 64 := by
  simp [hBytes, toLEBytes_length]

/-- Every byte of the serialized chaining state is below 256. -/
theorem hBytes_lt (h : H8) : ∀ b ∈ hBytes h, b < 256 := by
  intro b hb
  simp only [hBytes, List.mem_append] at hb
  rcases hb with ((((((hb | hb) | hb) | hb) | hb) | hb) | hb) | hb <;>
    exact toLEBytes_lt _ _ b hb

/-- A 16-byte BLAKE2b digest is exactly 16 bytes long. -/
theorem blake2b_sixteen_length (msg : List Nat) : (blake2b 16 msg).length = 16 := by
  simp [blake2b, hBytes_length]

/-- The hex encoding of a byte list has two characters per byte. -/
theorem hexDigest_length (bs : List Nat) : (hexDigest bs).length = 2 * bs.length := by
  show (bs.flatMap hexOfByte).length = 2 * bs.length
  induction bs with
  | nil => rfl
  | cons b t ih => simp [hexOfByte, ih] at ih ⊢; omega

/-- `Nat.digitChar` maps values below 16 into the hex alphabet. -/
theorem digitChar_mem_hexChars (n : Nat) (h : n < 16) : Nat.digitChar n ∈ hexChars := by
  interval_cases n <;> decide

/-- Every character of the hex encoding of a byte list lies in the hex
alphabet. -/
theorem hexDigest_chars (bs : List Nat) (hbs : ∀ b ∈ bs, b < 256) :
    ∀ c ∈ (hexDigest bs).data, c ∈ hexChars := by
  intro c hc
  have hc2 : c ∈ bs.flatMap hexOfByte := hc
  rw [List.mem_flatMap] at hc2
  obtain ⟨b, hb, hcb⟩ := hc2
  have hblt : b < 256 := hbs b hb
  simp only [hexOfByte, List.mem_cons, List.not_mem_nil, or_false] at hcb
  rcases hcb with rfl | rfl
  · exact digitChar_mem_hexChars _ (Nat.div_lt_of_lt_mul (by omega))
  · exact digitChar_mem_hexChars _ (Nat.mod_lt _ (by norm_num))

/-- C7: the key derivation is a pure deterministic function of
`(model, prompt)` — the same pair always yields the same key — and the key is
a fixed-length (32-character) lowercase-hexadecimal digest of a hash with
128 bits (16 bytes) of output. -/
theorem c7_key_derivation_deterministic_hex_128bit (m p : String) :
    getCacheKey m p = getCacheKey m p ∧
    (getCacheKey m p).length = 32 ∧
    (getCacheKey m p).data.all (fun c => hexChars.contains c) = true ∧
    (blake2b 16 (utf8Bytes (m ++ p))).length = 16 ∧ 16 * 8 = 128 := by
  refine ⟨rfl, ?_, ?_, blake2b_sixteen_length _, rfl⟩
  · unfold getCacheKey
    rw [hexDigest_length, blake2b_sixteen_length]
  · rw [List.all_eq_true]
    intro c hc
    have hmem : c ∈ hexChars := by
      refine hexDigest_chars _ ?_ c hc
      intro b hb
      exact hBytes_lt _ b (List.mem_of_mem_take hb)
    simpa [List.contains] using List.elem_eq_true_of_mem hmem

end Cache

